import Mathlib

/-!
Verification of `zoo/squeezenet/squeezenet_c.py` (SqueezeNet v1.0, composable).

The file under verification builds a Keras computation graph.  We embed the
construction shallowly: a "tensor" is the list of layers applied along its
path together with its symbolic shape; each builder method of the Python
class becomes a Lean function that appends layer descriptions and performs
the same shape inference the framework performs at construction time.
Numeric semantics (the final softmax) are modelled over the reals.

The Python `groups.pop()` in `learner` mutates the list it is given; when the
constructor's `groups` argument is `None`, that list is the class attribute
`SqueezeNet.groups` itself.  We model this by threading the current value of
the class attribute through the constructor and by having `learner` return
the mutated list alongside its result.
-/

namespace SqueezeNetC

/-- Padding mode of a Keras convolution / pooling layer. -/
inductive Padding
  | same
  | valid
deriving DecidableEq, Repr

/-- A kernel-regularizer value: Python `None` or `l2(c)` with coefficient `c`
(floats are modelled as rationals). -/
inductive Regularizer
  | noReg
  | l2 (c : ℚ)
deriving DecidableEq, Repr

/-- `tensorflow.keras.regularizers.l2`. -/
def l2 (c : ℚ) : Regularizer := Regularizer.l2 c

/-- One entry of a group table: the dict `{ 'n_filters' : v }`. -/
structure BlockParams where
  n_filters : ℕ
deriving DecidableEq, Repr

/-- A fire group: a list of per-block parameter dicts. -/
abbrev Group := List BlockParams

/-- Symbolic shape of a Keras tensor (batch dimension omitted):
a feature map `h × w × c`, or a rank-1 vector after global pooling. -/
inductive Shape
  | map (h w c : ℕ)
  | vec (n : ℕ)
deriving DecidableEq, Repr

/-- The layer kinds instantiated by the file (its imports from
`tensorflow.keras.layers`, plus the `Input` placeholder and the base class's
`ReLU` helper). -/
inductive Layer
  | input (shape : ℕ × ℕ × ℕ)
  | conv2D (filters kh kw stride : ℕ) (pad : Padding) (activation : Option String)
      (init : String) (reg : Regularizer)
  | maxPooling2D (ph pw sh sw : ℕ)
  | globalAveragePooling2D
  | concatenate
  | dropout (rate : ℚ)
  | relu (maxValue : Option ℚ)
  | activation (name : String)
deriving DecidableEq, Repr

/-- A symbolic tensor: the layers applied along its path, and its shape. -/
abbrev Tensor := List Layer × Shape

/-- Errors during graph construction: an error raised inside a framework
layer call, or a Python builtin `IndexError` (`list.pop()` / `list[0]` on an
empty list executed by this file). -/
inductive BuildErr
  | layerError
  | indexError
deriving DecidableEq, Repr

instance {ε α : Type} [DecidableEq ε] [DecidableEq α] : DecidableEq (Except ε α) :=
  fun a b =>
  match a, b with
  | .error e1, .error e2 => decidable_of_iff (e1 = e2) (by simp)
  | .error _, .ok _ => .isFalse (by simp)
  | .ok _, .error _ => .isFalse (by simp)
  | .ok v1, .ok v2 => decidable_of_iff (v1 = v2) (by simp)

/-- `⌈n / s⌉` on naturals: output extent of a stride-`s` layer with `same`
padding. -/
def ceilDiv (n s : ℕ) : ℕ := (n + s - 1) / s

/-- Output shape of a single-input layer, exactly as Keras infers it at
construction time (`same`: `⌈n/s⌉`; `valid`: `(n - k)/s + 1`, defined only
when the window fits). -/
def layerOutShape (l : Layer) (s : Shape) : Except BuildErr Shape :=
  match l, s with
  | .conv2D f _ _ stride .same _ _ _, .map h w _ =>
      .ok (.map (ceilDiv h stride) (ceilDiv w stride) f)
  | .conv2D f kh kw stride .valid _ _ _, .map h w _ =>
      if kh ≤ h ∧ kw ≤ w then .ok (.map ((h - kh) / stride + 1) ((w - kw) / stride + 1) f)
      else .error .layerError
  | .conv2D _ _ _ _ _ _ _ _, _ => .error .layerError
  | .maxPooling2D ph pw sh sw, .map h w c =>
      if ph ≤ h ∧ pw ≤ w then .ok (.map ((h - ph) / sh + 1) ((w - pw) / sw + 1) c)
      else .error .layerError
  | .maxPooling2D _ _ _ _, _ => .error .layerError
  | .globalAveragePooling2D, .map _ _ c => .ok (.vec c)
  | .globalAveragePooling2D, _ => .error .layerError
  | .concatenate, _ => .error .layerError
  | .input _, s => .ok s
  | .dropout _, s => .ok s
  | .relu _, s => .ok s
  | .activation _, s => .ok s

/-- Apply a single-input layer to a tensor: append it to the trace and infer
the output shape. -/
def applyLayer (l : Layer) (t : Tensor) : Except BuildErr Tensor :=
  match layerOutShape l t.2 with
  | .ok s => .ok (t.1 ++ [l], s)
  | .error e => .error e

/-- Output shape of `Concatenate()` on two feature maps (channel axis). -/
def concatShape (s1 s2 : Shape) : Except BuildErr Shape :=
  match s1, s2 with
  | .map h1 w1 c1, .map h2 w2 c2 =>
      if h1 = h2 ∧ w1 = w2 then .ok (.map h1 w1 (c1 + c2)) else .error .layerError
  | _, _ => .error .layerError

/-- Modelled from the spec: the base class `Composable` (file `models_c.py`,
not part of the sources) standardizes the activation policy; its ReLU clamp
class attribute defaults to `None` (no clamp). -/
def Composable.relu : Option ℚ := none

/-- Modelled from the spec: `Composable` (file `models_c.py`, not part of the
sources) standardizes regularizers across models via a class-level default
kernel-regularizer attribute `reg`; the spec fixes no value, and the value
does not influence graph shape, so we model it as `None`. -/
def Composable.reg : Regularizer := Regularizer.noReg

/-- Modelled from the spec: `Composable.ReLU` (file `models_c.py`, not part
of the sources) applies a ReLU activation with the standardized clamp. -/
def Composable.ReLU (t : Tensor) : Tensor :=
  (t.1 ++ [Layer.relu Composable.relu], t.2)

/-- Class attribute `SqueezeNet.groups`: blocks and filters per group. -/
def SqueezeNet.groups : List Group :=
  [ [ ⟨16⟩, ⟨16⟩, ⟨32⟩ ],
    [ ⟨32⟩, ⟨48⟩, ⟨48⟩, ⟨64⟩ ],
    [ ⟨64⟩ ] ]

/-- Class attribute `SqueezeNet.dropout`. -/
def SqueezeNet.dropout : ℚ := 1/2

/-- Class attribute `SqueezeNet.init_weights`. -/
def SqueezeNet.init_weights : String := "glorot_uniform"

/-- `SqueezeNet.reg`: the class defines no `reg` attribute of its own, so
Python attribute lookup falls through to the base class `Composable`. -/
def SqueezeNet.reg : Regularizer := Composable.reg

/-- `SqueezeNet.stem`: 96-filter 7×7 stride-2 `same` convolution, ReLU, then
3×3 stride-2 max-pooling.  `init_weights` is the instance attribute
`self.init_weights`; `reg` is read from the metaparameters. -/
def SqueezeNet.stem (inputs : Tensor) (init_weights : String) (reg : Regularizer) :
    Except BuildErr Tensor := do
  let x ← applyLayer (.conv2D 96 7 7 2 .same none init_weights reg) inputs
  let x := Composable.ReLU x
  applyLayer (.maxPooling2D 3 3 2 2) x

/-- `SqueezeNet.fire_block`: squeeze 1×1 stride-1 conv with built-in ReLU,
two parallel expand convs (1×1 and 3×3, `n_filters * 4` each, ReLU after),
then `Concatenate` of the two branches.  `reg` is taken from the
metaparameters when the key is present, else the class attribute
`SqueezeNet.reg`; `init_weights` defaults to the class attribute.  The two
branch traces start empty (they both grow from the squeeze output), so the
returned trace lists every layer of the block exactly once. -/
def SqueezeNet.fire_block (x : Tensor) (init_weights : Option String) (n_filters : ℕ)
    (reg? : Option Regularizer) : Except BuildErr Tensor := do
  let reg := match reg? with
    | some r => r
    | none => SqueezeNet.reg
  let iw := init_weights.getD SqueezeNet.init_weights
  let squeeze ← applyLayer (.conv2D n_filters 1 1 1 .same (some "relu") iw reg) x
  let expand1x1 ← applyLayer (.conv2D (n_filters * 4) 1 1 1 .same none iw reg) ([], squeeze.2)
  let expand1x1 := Composable.ReLU expand1x1
  let expand3x3 ← applyLayer (.conv2D (n_filters * 4) 3 3 1 .same none iw reg) ([], squeeze.2)
  let expand3x3 := Composable.ReLU expand3x3
  let outShape ← concatShape expand1x1.2 expand3x3.2
  Except.ok (squeeze.1 ++ expand1x1.1 ++ expand3x3.1 ++ [Layer.concatenate], outShape)

/-- `SqueezeNet.group`: one fire block per entry of `blocks`, then delayed
3×3 stride-2 max-pool downsampling. -/
def SqueezeNet.group (x : Tensor) (blocks : Group) (init_weights : Option String)
    (reg? : Option Regularizer) : Except BuildErr Tensor := do
  let iw := init_weights.getD SqueezeNet.init_weights
  let x ← blocks.foldlM (fun t b => SqueezeNet.fire_block t (some iw) b.n_filters reg?) x
  applyLayer (.maxPooling2D 3 3 2 2) x

/-- `SqueezeNet.learner`: resolve `dropout` (metaparameter or class default),
`groups.pop()` the final group (a builtin `IndexError` on an empty list),
build one fire group per remaining group, one fire block from the first
entry of the popped group (`last[0]`, again `IndexError` when empty), then
`Dropout`.  The second component is the value of the `groups` list after the
in-place `pop`, returned even when a later layer fails. -/
def SqueezeNet.learner (x : Tensor) (groups : List Group) (dropout? : Option ℚ)
    (reg? : Option Regularizer) : Except BuildErr Tensor × List Group :=
  let dropout := dropout?.getD SqueezeNet.dropout
  match groups.getLast? with
  | none => (.error .indexError, groups)
  | some last =>
    let groups' := groups.dropLast
    let res : Except BuildErr Tensor := do
      let x ← groups'.foldlM (fun t g => SqueezeNet.group t g none reg?) x
      let firstBlock ← match last.head? with
        | some b => Except.ok b
        | none => Except.error BuildErr.indexError
      let x ← SqueezeNet.fire_block x none firstBlock.n_filters reg?
      applyLayer (.dropout dropout) x
    (res, groups')

/-- `SqueezeNet.classifier`: 1×1 conv with `n_classes` filters, ReLU, global
average pooling, softmax activation. -/
def SqueezeNet.classifier (x : Tensor) (n_classes : ℕ) (init_weights : String)
    (reg : Regularizer) : Except BuildErr Tensor := do
  let x ← applyLayer (.conv2D n_classes 1 1 1 .same none init_weights reg) x
  let x := Composable.ReLU x
  let x ← applyLayer .globalAveragePooling2D x
  applyLayer (.activation "softmax") x

/-- The constructor's keyword parameters with their declared defaults. -/
structure Config where
  groups : Option (List Group) := none
  dropout : ℚ := 1/2
  input_shape : ℕ × ℕ × ℕ := (224, 224, 3)
  n_classes : ℕ := 1000
  init_weights : String := "glorot_uniform"
  reg : Regularizer := l2 (1/1000)
  relu : Option ℚ := none
deriving DecidableEq, Repr

/-- The constructed model: recorded input shape, the layer trace of its
output tensor, and the output shape. -/
structure Model where
  input_shape : ℕ × ℕ × ℕ
  layers : List Layer
  output : Shape
deriving DecidableEq, Repr

/-- The `Input(shape=input_shape)` placeholder tensor. -/
def inputTensor (s : ℕ × ℕ × ℕ) : Tensor :=
  ([Layer.input s], .map s.1 s.2.1 s.2.2)

/-- The groups table actually used by the constructor: the `groups` argument
when supplied, else the class attribute (`if groups is None: groups =
SqueezeNet.groups`). -/
def usedGroups (cfg : Config) (classGroups : List Group) : List Group :=
  cfg.groups.getD classGroups

/-- `SqueezeNet.__init__`.  `classGroups` is the current value of the mutable
class attribute `SqueezeNet.groups`; when the `groups` argument is `None` the
constructor uses that very list, so the `pop` inside `learner` mutates it.
The second component is the value of the class attribute afterwards. -/
def SqueezeNet.init (cfg : Config) (classGroups : List Group) :
    Except BuildErr Model × List Group :=
  let groups := usedGroups cfg classGroups
  let inputs : Tensor := inputTensor cfg.input_shape
  match SqueezeNet.stem inputs cfg.init_weights cfg.reg with
  | .error e => (.error e, classGroups)
  | .ok x =>
    let p := SqueezeNet.learner x groups (some cfg.dropout) (some cfg.reg)
    let classGroups' := if cfg.groups.isNone then p.2 else classGroups
    (p.1 >>= fun x =>
      (SqueezeNet.classifier x cfg.n_classes cfg.init_weights cfg.reg >>= fun outputs =>
        Except.ok ⟨cfg.input_shape, outputs.1, outputs.2⟩),
     classGroups')

/-- The softmax activation, modelled over the reals. -/
noncomputable def softmax {n : ℕ} (v : Fin n → ℝ) (i : Fin n) : ℝ :=
  Real.exp (v i) / ∑ j, Real.exp (v j)

/-- Number of fire blocks in a layer trace: each fire block contributes
exactly one `Concatenate`, and nothing else does. -/
def fireBlockCount (ls : List Layer) : ℕ :=
  ls.countP (fun l => match l with | .concatenate => true | _ => false)

/-- Number of `MaxPooling2D` layers in a trace: one from the stem plus one
per fire group. -/
def maxPoolCount (ls : List Layer) : ℕ :=
  ls.countP (fun l => match l with | .maxPooling2D _ _ _ _ => true | _ => false)

/-- Total number of `n_filters` entries of a groups table. -/
def totalBlockEntries (gs : List Group) : ℕ :=
  (gs.map List.length).sum

/-- The layers a fire block appends to its input's trace. -/
def fireSuffix (iw : String) (n : ℕ) (r : Regularizer) : List Layer :=
  [Layer.conv2D n 1 1 1 .same (some "relu") iw r,
   Layer.conv2D (n * 4) 1 1 1 .same none iw r, Layer.relu Composable.relu,
   Layer.conv2D (n * 4) 3 3 1 .same none iw r, Layer.relu Composable.relu,
   Layer.concatenate]

/-- The layers the stem appends: one convolution stage (96 filters, 7×7,
stride 2, ReLU) followed by one max-pooling stage (3×3, stride 2). -/
def stemSuffix (iw : String) (r : Regularizer) : List Layer :=
  [Layer.conv2D 96 7 7 2 .same none iw r, Layer.relu Composable.relu,
   Layer.maxPooling2D 3 3 2 2]

/-- The layers the classifier appends. -/
def classifierSuffix (n_classes : ℕ) (iw : String) (r : Regularizer) : List Layer :=
  [Layer.conv2D n_classes 1 1 1 .same none iw r, Layer.relu Composable.relu,
   Layer.globalAveragePooling2D, Layer.activation "softmax"]

/-- The fixed catalog of building blocks the spec describes: input
placeholder, convolution, max / global-average pooling, concatenation,
dropout, ReLU, and the softmax activation (no `Activation` layer other than
softmax). -/
def inCatalog : Layer → Bool
  | .input _ => true
  | .conv2D _ _ _ _ _ _ _ _ => true
  | .maxPooling2D _ _ _ _ => true
  | .globalAveragePooling2D => true
  | .concatenate => true
  | .dropout _ => true
  | .relu _ => true
  | .activation name => name = "softmax"

/-- The first construction with all-default arguments, from the pristine
class attribute. -/
def defaultBuild : Except BuildErr Model × List Group :=
  SqueezeNet.init {} SqueezeNet.groups

/-- The model produced by the first all-default construction. -/
def defaultModel : Model :=
  match defaultBuild.1 with
  | .ok m => m
  | .error _ => ⟨(0, 0, 0), [], .vec 0⟩

theorem ok_bind {α β : Type} (a : α) (f : α → Except BuildErr β) :
    (Except.ok a >>= f) = f a := rfl

theorem error_bind {α β : Type} (e : BuildErr) (f : α → Except BuildErr β) :
    ((Except.error e : Except BuildErr α) >>= f) = Except.error e := rfl

/-! ### Trace lemmas -/

theorem ceilDiv_one (n : ℕ) : ceilDiv n 1 = n := by
  simp [ceilDiv]

theorem fireBlockCount_append (a b : List Layer) :
    fireBlockCount (a ++ b) = fireBlockCount a + fireBlockCount b :=
  List.countP_append _ _ _

theorem maxPoolCount_append (a b : List Layer) :
    maxPoolCount (a ++ b) = maxPoolCount a + maxPoolCount b :=
  List.countP_append _ _ _

theorem fireSuffix_fireBlockCount (iw : String) (n : ℕ) (r : Regularizer) :
    fireBlockCount (fireSuffix iw n r) = 1 := rfl

theorem fireSuffix_maxPoolCount (iw : String) (n : ℕ) (r : Regularizer) :
    maxPoolCount (fireSuffix iw n r) = 0 := rfl

theorem fireSuffix_inCatalog (iw : String) (n : ℕ) (r : Regularizer) :
    (fireSuffix iw n r).all inCatalog = true := rfl

/-- On a feature-map input, a fire block always succeeds: it appends exactly
the layers of `fireSuffix` (squeeze, the two expand branches, `Concatenate`)
and keeps the spatial extent while producing `4n + 4n` channels. -/
theorem fire_block_map (x : Tensor) (iw : Option String) (n : ℕ) (r? : Option Regularizer)
    (hh ww c : ℕ) (hx : x.2 = .map hh ww c) :
    SqueezeNet.fire_block x iw n r? =
      .ok (x.1 ++ fireSuffix (iw.getD SqueezeNet.init_weights) n (r?.getD SqueezeNet.reg),
           .map hh ww (n * 4 + n * 4)) := by
  obtain ⟨tr, s⟩ := x
  replace hx : s = Shape.map hh ww c := hx
  subst hx
  cases r? with
  | none =>
      simp [SqueezeNet.fire_block, applyLayer, layerOutShape, Composable.ReLU, concatShape,
            fireSuffix, ceilDiv_one, ok_bind]
  | some r =>
      simp [SqueezeNet.fire_block, applyLayer, layerOutShape, Composable.ReLU, concatShape,
            fireSuffix, ceilDiv_one, ok_bind]

/-- Inversion: a successful fire block came from a feature-map input and is
exactly the `fireSuffix` extension. -/
theorem fire_block_ok {x t : Tensor} {iw : Option String} {n : ℕ} {r? : Option Regularizer}
    (h : SqueezeNet.fire_block x iw n r? = .ok t) :
    ∃ hh ww c, x.2 = .map hh ww c ∧
      t = (x.1 ++ fireSuffix (iw.getD SqueezeNet.init_weights) n (r?.getD SqueezeNet.reg),
           .map hh ww (n * 4 + n * 4)) := by
  obtain ⟨tr, s⟩ := x
  cases s with
  | vec m =>
      exfalso
      cases r? with
      | none => simp [SqueezeNet.fire_block, applyLayer, layerOutShape, error_bind] at h
      | some r => simp [SqueezeNet.fire_block, applyLayer, layerOutShape, error_bind] at h
  | map hh ww c =>
      refine ⟨hh, ww, c, rfl, ?_⟩
      rw [fire_block_map (tr, Shape.map hh ww c) iw n r? hh ww c rfl] at h
      exact (Except.ok.inj h).symm

/-- A successful run of a group's fire-block fold extends the trace by
`blocks.length` fire blocks, all from the catalog, with no pooling. -/
theorem foldFire_ok (blocks : Group) : ∀ (x t : Tensor) (iw : String) (r? : Option Regularizer),
    blocks.foldlM (fun tt b => SqueezeNet.fire_block tt (some iw) b.n_filters r?) x = .ok t →
    ∃ suf, t.1 = x.1 ++ suf ∧ fireBlockCount suf = blocks.length ∧
      maxPoolCount suf = 0 ∧ suf.all inCatalog := by
  induction blocks with
  | nil =>
      intro x t iw r? h
      simp only [List.foldlM_nil] at h
      refine ⟨[], ?_, rfl, rfl, rfl⟩
      cases h
      simp
  | cons b bs ih =>
      intro x t iw r? h
      rw [List.foldlM_cons] at h
      cases hfb : SqueezeNet.fire_block x (some iw) b.n_filters r? with
      | error e => rw [hfb, error_bind] at h; cases h
      | ok x' =>
          rw [hfb, ok_bind] at h
          obtain ⟨suf, h1, h2, h3, h4⟩ := ih x' t iw r? h
          obtain ⟨hh, ww, c, _, hx'⟩ := fire_block_ok hfb
          refine ⟨fireSuffix iw b.n_filters (r?.getD SqueezeNet.reg) ++ suf, ?_, ?_, ?_, ?_⟩
          · rw [h1, hx']
            simp
          · rw [fireBlockCount_append, fireSuffix_fireBlockCount, h2, List.length_cons]
            omega
          · rw [maxPoolCount_append, fireSuffix_maxPoolCount, h3]
          · rw [List.all_append, fireSuffix_inCatalog, h4]
            rfl

/-- Unfolding of `SqueezeNet.group` to a monadic pipeline. -/
theorem group_eq (x : Tensor) (blocks : Group) (iw : Option String)
    (r? : Option Regularizer) :
    SqueezeNet.group x blocks iw r? =
      (blocks.foldlM
        (fun tt b =>
          SqueezeNet.fire_block tt (some (iw.getD SqueezeNet.init_weights)) b.n_filters r?) x)
        >>= applyLayer (.maxPooling2D 3 3 2 2) := rfl

/-- A successful fire group extends the trace by its blocks' layers and one
`MaxPooling2D`, all from the catalog. -/
theorem group_ok {x t : Tensor} {blocks : Group} {iw : Option String}
    {r? : Option Regularizer} (h : SqueezeNet.group x blocks iw r? = .ok t) :
    ∃ suf, t.1 = x.1 ++ suf ∧ fireBlockCount suf = blocks.length ∧
      maxPoolCount suf = 1 ∧ suf.all inCatalog := by
  rw [group_eq] at h
  cases hf : blocks.foldlM
      (fun tt b =>
        SqueezeNet.fire_block tt (some (iw.getD SqueezeNet.init_weights)) b.n_filters r?) x with
  | error e => rw [hf, error_bind] at h; cases h
  | ok y =>
      rw [hf, ok_bind] at h
      obtain ⟨suf, h1, h2, h3, h4⟩ := foldFire_ok blocks x y _ r? hf
      unfold applyLayer at h
      cases hsh : layerOutShape (.maxPooling2D 3 3 2 2) y.2 with
      | error e => rw [hsh] at h; cases h
      | ok s =>
          rw [hsh] at h
          cases h
          refine ⟨suf ++ [Layer.maxPooling2D 3 3 2 2], ?_, ?_, ?_, ?_⟩
          · rw [← List.append_assoc, h1]
          · rw [fireBlockCount_append, h2]
            rfl
          · rw [maxPoolCount_append, h3]
            rfl
          · rw [List.all_append, h4]
            rfl

/-- Inversion for `applyLayer`. -/
theorem applyLayer_ok {l : Layer} {x t : Tensor} (h : applyLayer l x = .ok t) :
    ∃ s, layerOutShape l x.2 = .ok s ∧ t = (x.1 ++ [l], s) := by
  unfold applyLayer at h
  cases hsh : layerOutShape l x.2 with
  | error e => rw [hsh] at h; cases h
  | ok s => rw [hsh] at h; exact ⟨s, rfl, (Except.ok.inj h).symm⟩

theorem totalBlockEntries_cons (g : Group) (gs : List Group) :
    totalBlockEntries (g :: gs) = g.length + totalBlockEntries gs := by
  simp [totalBlockEntries]

/-- A successful run of the learner's group fold extends the trace by one
fire group per entry of `gs`. -/
theorem foldGroup_ok (gs : List Group) : ∀ (x t : Tensor) (r? : Option Regularizer),
    gs.foldlM (fun tt g => SqueezeNet.group tt g none r?) x = .ok t →
    ∃ suf, t.1 = x.1 ++ suf ∧ fireBlockCount suf = totalBlockEntries gs ∧
      maxPoolCount suf = gs.length ∧ suf.all inCatalog := by
  induction gs with
  | nil =>
      intro x t r? h
      simp only [List.foldlM_nil] at h
      refine ⟨[], ?_, rfl, rfl, rfl⟩
      cases h
      simp
  | cons g gs ih =>
      intro x t r? h
      rw [List.foldlM_cons] at h
      cases hg : SqueezeNet.group x g none r? with
      | error e => rw [hg, error_bind] at h; cases h
      | ok x' =>
          rw [hg, ok_bind] at h
          obtain ⟨suf2, k1, k2, k3, k4⟩ := ih x' t r? h
          obtain ⟨suf1, h1, h2, h3, h4⟩ := group_ok hg
          refine ⟨suf1 ++ suf2, ?_, ?_, ?_, ?_⟩
          · rw [k1, h1, List.append_assoc]
          · rw [fireBlockCount_append, h2, k2, totalBlockEntries_cons]
          · rw [maxPoolCount_append, h3, k3, List.length_cons]
            omega
          · rw [List.all_append, h4, k4]
            rfl

/-- On a feature-map input of sufficient spatial extent, the stem succeeds
and is exactly `stemSuffix`: one convolution stage then one pooling stage. -/
theorem stem_map (x : Tensor) (iw : String) (r : Regularizer) (hh ww c : ℕ)
    (hx : x.2 = .map hh ww c) (h3h : 3 ≤ ceilDiv hh 2) (h3w : 3 ≤ ceilDiv ww 2) :
    SqueezeNet.stem x iw r =
      .ok (x.1 ++ stemSuffix iw r,
           .map ((ceilDiv hh 2 - 3) / 2 + 1) ((ceilDiv ww 2 - 3) / 2 + 1) 96) := by
  obtain ⟨tr, s⟩ := x
  replace hx : s = Shape.map hh ww c := hx
  subst hx
  simp [SqueezeNet.stem, applyLayer, layerOutShape, Composable.ReLU, stemSuffix,
        ok_bind, h3h, h3w]

/-- Inversion for the stem: success implies a feature-map input whose halved
extent fits the 3×3 pool, and the trace grows by exactly `stemSuffix`. -/
theorem stem_ok {x t : Tensor} {iw : String} {r : Regularizer}
    (h : SqueezeNet.stem x iw r = .ok t) :
    ∃ hh ww c, x.2 = .map hh ww c ∧ 3 ≤ ceilDiv hh 2 ∧ 3 ≤ ceilDiv ww 2 ∧
      t = (x.1 ++ stemSuffix iw r,
           .map ((ceilDiv hh 2 - 3) / 2 + 1) ((ceilDiv ww 2 - 3) / 2 + 1) 96) := by
  obtain ⟨tr, s⟩ := x
  cases s with
  | vec m => simp [SqueezeNet.stem, applyLayer, layerOutShape, error_bind] at h
  | map hh ww c =>
      by_cases h3h : 3 ≤ ceilDiv hh 2
      · by_cases h3w : 3 ≤ ceilDiv ww 2
        · refine ⟨hh, ww, c, rfl, h3h, h3w, ?_⟩
          rw [stem_map (tr, Shape.map hh ww c) iw r hh ww c rfl h3h h3w] at h
          exact (Except.ok.inj h).symm
        · exfalso
          simp [SqueezeNet.stem, applyLayer, layerOutShape, Composable.ReLU, ok_bind,
                h3w] at h
      · exfalso
        simp [SqueezeNet.stem, applyLayer, layerOutShape, Composable.ReLU, ok_bind,
              h3h] at h

/-- On a feature-map input the classifier succeeds and appends exactly
`classifierSuffix`, ending in an output of `n_classes` entries. -/
theorem classifier_map (x : Tensor) (n_classes : ℕ) (iw : String) (r : Regularizer)
    (hh ww c : ℕ) (hx : x.2 = .map hh ww c) :
    SqueezeNet.classifier x n_classes iw r =
      .ok (x.1 ++ classifierSuffix n_classes iw r, .vec n_classes) := by
  obtain ⟨tr, s⟩ := x
  replace hx : s = Shape.map hh ww c := hx
  subst hx
  simp [SqueezeNet.classifier, applyLayer, layerOutShape, Composable.ReLU,
        classifierSuffix, ceilDiv_one, ok_bind]

/-- Inversion for the classifier. -/
theorem classifier_ok {x t : Tensor} {n_classes : ℕ} {iw : String} {r : Regularizer}
    (h : SqueezeNet.classifier x n_classes iw r = .ok t) :
    ∃ hh ww c, x.2 = .map hh ww c ∧
      t = (x.1 ++ classifierSuffix n_classes iw r, .vec n_classes) := by
  obtain ⟨tr, s⟩ := x
  cases s with
  | vec m => simp [SqueezeNet.classifier, applyLayer, layerOutShape, error_bind] at h
  | map hh ww c =>
      refine ⟨hh, ww, c, rfl, ?_⟩
      rw [classifier_map (tr, Shape.map hh ww c) n_classes iw r hh ww c rfl] at h
      exact (Except.ok.inj h).symm

/-- `learner` always leaves the `groups` list it was given equal to that
list minus its final element: the in-place `groups.pop()` (on the empty
list the `pop` raises before mutating, and `[].dropLast = []`). -/
theorem learner_pop (x : Tensor) (groups : List Group) (dropout? : Option ℚ)
    (reg? : Option Regularizer) :
    (SqueezeNet.learner x groups dropout? reg?).2 = groups.dropLast := by
  cases hg : groups.getLast? with
  | none =>
      have : groups = [] := List.getLast?_eq_none_iff.mp hg
      subst this
      rfl
  | some last =>
      simp only [SqueezeNet.learner, hg]

theorem layerOutShape_dropout (d : ℚ) (s : Shape) :
    layerOutShape (.dropout d) s = .ok s := by
  cases s <;> rfl

theorem pure_bind {α β : Type} (a : α) (f : α → Except BuildErr β) :
    ((pure a : Except BuildErr α) >>= f) = f a := rfl

theorem applyLayer_dropout (d : ℚ) (t : Tensor) :
    applyLayer (.dropout d) t = .ok (t.1 ++ [Layer.dropout d], t.2) := by
  unfold applyLayer
  rw [layerOutShape_dropout]

/-- The fire-block fold of a group preserves the spatial extent of a
feature-map input and always succeeds on one. -/
theorem foldFire_map (blocks : Group) : ∀ (x : Tensor) (iw : String)
    (r? : Option Regularizer) (hh ww c : ℕ), x.2 = .map hh ww c →
    ∃ tr c', blocks.foldlM
        (fun tt b => SqueezeNet.fire_block tt (some iw) b.n_filters r?) x =
      .ok (tr, .map hh ww c') := by
  induction blocks with
  | nil =>
      intro x iw r? hh ww c hx
      refine ⟨x.1, c, ?_⟩
      rw [List.foldlM_nil, ← hx]
      rfl
  | cons b bs ih =>
      intro x iw r? hh ww c hx
      rw [List.foldlM_cons, fire_block_map x (some iw) b.n_filters r? hh ww c hx,
          ok_bind]
      exact ih _ iw r? hh ww (b.n_filters * 4 + b.n_filters * 4) rfl

/-- A fire group on a feature-map input of extent ≥ 3 succeeds and halves the
spatial extent through its closing pool. -/
theorem group_map (blocks : Group) (x : Tensor) (iw : Option String)
    (r? : Option Regularizer) (hh ww c : ℕ) (hx : x.2 = .map hh ww c)
    (h3h : 3 ≤ hh) (h3w : 3 ≤ ww) :
    ∃ tr c', SqueezeNet.group x blocks iw r? =
      .ok (tr, .map ((hh - 3) / 2 + 1) ((ww - 3) / 2 + 1) c') := by
  obtain ⟨tr, c', hf⟩ :=
    foldFire_map blocks x (iw.getD SqueezeNet.init_weights) r? hh ww c hx
  refine ⟨tr ++ [Layer.maxPooling2D 3 3 2 2], c', ?_⟩
  rw [group_eq, hf, ok_bind]
  simp [applyLayer, layerOutShape, h3h, h3w]

/-- Inversion for the learner: on success, the layers added are one fire
group per non-final group, one fire block from the head of the popped final
group, and the closing `Dropout`. -/
theorem learner_ok {x t : Tensor} {groups groups' : List Group} {dropout? : Option ℚ}
    {reg? : Option Regularizer}
    (h : SqueezeNet.learner x groups dropout? reg? = (.ok t, groups')) :
    groups' = groups.dropLast ∧
    ∃ suf, t.1 = x.1 ++ suf ∧
      fireBlockCount suf = totalBlockEntries groups.dropLast + 1 ∧
      maxPoolCount suf = groups.dropLast.length ∧ suf.all inCatalog := by
  cases hg : groups.getLast? with
  | none =>
      simp [SqueezeNet.learner, hg] at h
  | some last =>
      simp only [SqueezeNet.learner, hg] at h
      rw [Prod.mk.injEq] at h
      obtain ⟨hres, hgl⟩ := h
      refine ⟨hgl.symm, ?_⟩
      cases hf : groups.dropLast.foldlM (fun tt g => SqueezeNet.group tt g none reg?) x with
      | error e => rw [hf, error_bind] at hres; cases hres
      | ok x1 =>
          rw [hf, ok_bind] at hres
          cases hhd : last.head? with
          | none => simp only [hhd, error_bind] at hres; cases hres
          | some b =>
              simp only [hhd, ok_bind] at hres
              cases hfb : SqueezeNet.fire_block x1 none b.n_filters reg? with
              | error e => rw [hfb, error_bind] at hres; cases hres
              | ok x2 =>
                  rw [hfb, ok_bind] at hres
                  obtain ⟨s, hsh, ht⟩ := applyLayer_ok hres
                  rw [layerOutShape_dropout] at hsh
                  obtain ⟨suf0, k1, k2, k3, k4⟩ := foldGroup_ok groups.dropLast x x1 reg? hf
                  obtain ⟨hh, ww, c, _, hx2⟩ := fire_block_ok hfb
                  refine ⟨suf0 ++
                      fireSuffix ((none : Option String).getD SqueezeNet.init_weights)
                        b.n_filters (reg?.getD SqueezeNet.reg) ++
                      [Layer.dropout (dropout?.getD SqueezeNet.dropout)], ?_, ?_, ?_, ?_⟩
                  · rw [ht, hx2, k1]
                    simp
                  · rw [fireBlockCount_append, fireBlockCount_append,
                        fireSuffix_fireBlockCount, k2]
                    rfl
                  · rw [maxPoolCount_append, maxPoolCount_append,
                        fireSuffix_maxPoolCount, k3]
                    rfl
                  · rw [List.all_append, List.all_append, fireSuffix_inCatalog, k4]
                    rfl

/-- Inversion for the constructor: a successful construction is exactly the
composition stem → learner → classifier applied to the input placeholder,
and the class attribute is popped exactly when the `groups` argument was
`None`. -/
theorem init_ok {cfg : Config} {st st' : List Group} {m : Model}
    (h : SqueezeNet.init cfg st = (.ok m, st')) :
    ∃ x1 x2 out,
      SqueezeNet.stem (inputTensor cfg.input_shape) cfg.init_weights cfg.reg = .ok x1 ∧
      SqueezeNet.learner x1 (usedGroups cfg st) (some cfg.dropout) (some cfg.reg) =
        (.ok x2, (usedGroups cfg st).dropLast) ∧
      SqueezeNet.classifier x2 cfg.n_classes cfg.init_weights cfg.reg = .ok out ∧
      m = ⟨cfg.input_shape, out.1, out.2⟩ ∧
      st' = if cfg.groups.isNone then (usedGroups cfg st).dropLast else st := by
  simp only [SqueezeNet.init] at h
  cases hs : SqueezeNet.stem (inputTensor cfg.input_shape) cfg.init_weights cfg.reg with
  | error e => rw [hs] at h; cases h
  | ok x1 =>
      simp only [hs] at h
      have hp := learner_pop x1 (usedGroups cfg st) (some cfg.dropout) (some cfg.reg)
      cases hr : (SqueezeNet.learner x1 (usedGroups cfg st) (some cfg.dropout)
          (some cfg.reg)).1 with
      | error e =>
          rw [hr, error_bind, Prod.mk.injEq] at h
          cases h.1
      | ok x2 =>
          rw [hr, ok_bind] at h
          cases hc : SqueezeNet.classifier x2 cfg.n_classes cfg.init_weights cfg.reg with
          | error e =>
              rw [hc, error_bind, Prod.mk.injEq] at h
              cases h.1
          | ok out =>
              rw [hc, ok_bind, Prod.mk.injEq] at h
              obtain ⟨hm, hst⟩ := h
              refine ⟨x1, x2, out, rfl, ?_, hc, (Except.ok.inj hm).symm, ?_⟩
              · rw [← hp, ← hr]
              · rw [← hst, hp]

/-- The softmax of any nonempty real vector sums to 1. -/
theorem softmax_sum {n : ℕ} (hn : 0 < n) (v : Fin n → ℝ) :
    ∑ i, softmax v i = 1 := by
  have hpos : 0 < ∑ j, Real.exp (v j) :=
    Finset.sum_pos (fun i _ => Real.exp_pos _) ⟨⟨0, hn⟩, Finset.mem_univ _⟩
  unfold softmax
  rw [← Finset.sum_div]
  exact div_self (ne_of_gt hpos)

/-! ### Claims -/

/-- C1: every successful construction records the declared `input_shape` as
the accepted input, its output tensor is a vector of exactly `n_classes`
entries, and (for a positive class count) the final softmax activation turns
any pre-activation vector into one summing to 1. -/
theorem C1_output_has_n_classes_summing_to_one (cfg : Config) (st st' : List Group)
    (m : Model) (h : SqueezeNet.init cfg st = (.ok m, st')) (hn : 0 < cfg.n_classes) :
    m.input_shape = cfg.input_shape ∧ m.output = .vec cfg.n_classes ∧
    ∀ v : Fin cfg.n_classes → ℝ, ∑ i, softmax v i = 1 := by
  obtain ⟨x1, x2, out, hs, hl, hc, hm, _⟩ := init_ok h
  obtain ⟨hh, ww, c, _, hout⟩ := classifier_ok hc
  subst hm
  refine ⟨rfl, ?_, fun v => softmax_sum hn v⟩
  show out.2 = Shape.vec cfg.n_classes
  rw [hout]

/-- Witness for C1 at the all-default construction. -/
theorem C1_witness :
    defaultModel.input_shape = (224, 224, 3) ∧ defaultModel.output = .vec 1000 ∧
    ∑ i, softmax (fun _ : Fin 1000 => (0 : ℝ)) i = 1 := by
  have h := C1_output_has_n_classes_summing_to_one {} SqueezeNet.groups
    SqueezeNet.groups.dropLast defaultModel rfl (by decide)
  exact ⟨h.1, h.2.1, h.2.2 (fun _ => 0)⟩

/-- C2 counterexample: with the table `[[16], [32, 64]]` (3 block entries)
the constructed model contains only 2 fire blocks — the second entry of the
final group is never consumed, because `learner` builds a single fire block
from `last[0]` only. -/
theorem C2_counterexample :
    totalBlockEntries [[⟨16⟩], [⟨32⟩, ⟨64⟩]] = 3 ∧
    ((SqueezeNet.init { groups := some [[⟨16⟩], [⟨32⟩, ⟨64⟩]] }
        SqueezeNet.groups).1.toOption.map (fun m => fireBlockCount m.layers)) = some 2 ∧
    (2 : ℕ) ≠ 3 := by
  decide

/-- C2 (amended): every block entry of every group except the popped final
group contributes exactly one fire block, and the final group contributes
exactly one fire block (from its first entry); so a successful model has
`totalBlockEntries groups.dropLast + 1` fire blocks. -/
theorem C2_fire_blocks_per_entry (cfg : Config) (st st' : List Group) (m : Model)
    (h : SqueezeNet.init cfg st = (.ok m, st')) :
    fireBlockCount m.layers = totalBlockEntries (usedGroups cfg st).dropLast + 1 := by
  obtain ⟨x1, x2, out, hs, hl, hc, hm, _⟩ := init_ok h
  obtain ⟨hh, ww, c, _, _, _, hx1⟩ := stem_ok hs
  obtain ⟨_, suf, hsuf, hcnt, _, _⟩ := learner_ok hl
  obtain ⟨hh2, ww2, c2, _, hout⟩ := classifier_ok hc
  subst hm
  show fireBlockCount out.1 = _
  have houtl : out.1 = x2.1 ++ classifierSuffix cfg.n_classes cfg.init_weights cfg.reg := by
    rw [hout]
  have hx1l : x1.1 = [Layer.input cfg.input_shape] ++ stemSuffix cfg.init_weights cfg.reg := by
    rw [hx1]; rfl
  rw [houtl, hsuf, hx1l, fireBlockCount_append, fireBlockCount_append,
      fireBlockCount_append, hcnt]
  have e1 : fireBlockCount [Layer.input cfg.input_shape] = 0 := rfl
  have e2 : fireBlockCount (stemSuffix cfg.init_weights cfg.reg) = 0 := rfl
  have e3 : fireBlockCount (classifierSuffix cfg.n_classes cfg.init_weights cfg.reg) = 0 := rfl
  rw [e1, e2, e3]
  omega

/-- Witness for the amended C2 at the all-default construction:
8 fire blocks = 7 entries in the two non-final groups + 1. -/
theorem C2_witness :
    fireBlockCount defaultModel.layers =
      totalBlockEntries (usedGroups {} SqueezeNet.groups).dropLast + 1 :=
  C2_fire_blocks_per_entry {} SqueezeNet.groups SqueezeNet.groups.dropLast defaultModel
    rfl

/-- C3: `learner` pops the final group off the list it receives (the caller's
list is left equal to its `dropLast`), and with `groups=None` that list is
the class attribute itself: after a first default construction the class
attribute has lost its final group, and a second default construction builds
one fewer fire group (`maxPoolCount` = stem pool + one pool per fire group:
3 for the first model, 2 for the second). -/
theorem C3_pop_mutates_class_groups :
    (∀ (x : Tensor) (groups : List Group) (dropout? : Option ℚ)
        (reg? : Option Regularizer),
      (SqueezeNet.learner x groups dropout? reg?).2 = groups.dropLast) ∧
    (SqueezeNet.init {} SqueezeNet.groups).2 = SqueezeNet.groups.dropLast ∧
    ((SqueezeNet.init {} SqueezeNet.groups).1.toOption.map
      (fun m => maxPoolCount m.layers)) = some 3 ∧
    ((SqueezeNet.init {} SqueezeNet.groups.dropLast).1.toOption.map
      (fun m => maxPoolCount m.layers)) = some 2 ∧
    (SqueezeNet.init {} SqueezeNet.groups.dropLast).2 =
      SqueezeNet.groups.dropLast.dropLast := by
  refine ⟨learner_pop, ?_, ?_, ?_, ?_⟩ <;> decide

/-- C4: a successful construction is exactly the composition
`classifier(learner(stem(Input(input_shape))))`, with no other stage. -/
theorem C4_linear_composition (cfg : Config) (st st' : List Group) (m : Model)
    (h : SqueezeNet.init cfg st = (.ok m, st')) :
    ∃ x1 x2 out,
      SqueezeNet.stem (inputTensor cfg.input_shape) cfg.init_weights cfg.reg = .ok x1 ∧
      SqueezeNet.learner x1 (usedGroups cfg st) (some cfg.dropout) (some cfg.reg) =
        (.ok x2, (usedGroups cfg st).dropLast) ∧
      SqueezeNet.classifier x2 cfg.n_classes cfg.init_weights cfg.reg = .ok out ∧
      m = ⟨cfg.input_shape, out.1, out.2⟩ := by
  obtain ⟨x1, x2, out, hs, hl, hc, hm, _⟩ := init_ok h
  exact ⟨x1, x2, out, hs, hl, hc, hm⟩

/-- Witness for C4 at the all-default construction. -/
theorem C4_witness :
    ∃ x1 x2 out,
      SqueezeNet.stem (inputTensor (224, 224, 3)) "glorot_uniform" (l2 (1/1000)) =
        .ok x1 ∧
      SqueezeNet.learner x1 SqueezeNet.groups (some (1/2)) (some (l2 (1/1000))) =
        (.ok x2, SqueezeNet.groups.dropLast) ∧
      SqueezeNet.classifier x2 1000 "glorot_uniform" (l2 (1/1000)) = .ok out ∧
      defaultModel = ⟨(224, 224, 3), out.1, out.2⟩ :=
  C4_linear_composition {} SqueezeNet.groups SqueezeNet.groups.dropLast defaultModel
    rfl

/-- C5: on any feature-map input, a fire block with filter count `n` is the
1×1 stride-1 ReLU squeeze convolution with `n` filters, the two parallel
expand convolutions over the squeeze output (1×1 and 3×3, `4n` filters each,
ReLU after each), and the concatenation of the two branches (output channels
`4n + 4n`). -/
theorem C5_fire_block_structure (x : Tensor) (iw : Option String) (n : ℕ)
    (r? : Option Regularizer) (hh ww c : ℕ) (hx : x.2 = .map hh ww c) :
    SqueezeNet.fire_block x iw n r? =
      .ok (x.1 ++
        [Layer.conv2D n 1 1 1 .same (some "relu") (iw.getD SqueezeNet.init_weights)
           (r?.getD SqueezeNet.reg),
         Layer.conv2D (n * 4) 1 1 1 .same none (iw.getD SqueezeNet.init_weights)
           (r?.getD SqueezeNet.reg),
         Layer.relu Composable.relu,
         Layer.conv2D (n * 4) 3 3 1 .same none (iw.getD SqueezeNet.init_weights)
           (r?.getD SqueezeNet.reg),
         Layer.relu Composable.relu,
         Layer.concatenate],
        .map hh ww (n * 4 + n * 4)) :=
  fire_block_map x iw n r? hh ww c hx

/-- Witness for C5: a concrete fire block with 16 filters on a 7×7×3 map. -/
theorem C5_witness :
    SqueezeNet.fire_block ([], .map 7 7 3) none 16 none =
      .ok ([Layer.conv2D 16 1 1 1 .same (some "relu") "glorot_uniform" Regularizer.noReg,
            Layer.conv2D 64 1 1 1 .same none "glorot_uniform" Regularizer.noReg,
            Layer.relu none,
            Layer.conv2D 64 3 3 1 .same none "glorot_uniform" Regularizer.noReg,
            Layer.relu none,
            Layer.concatenate],
           .map 7 7 128) :=
  C5_fire_block_structure ([], .map 7 7 3) none 16 none 7 7 3 rfl

/-- C6: the constructor's configuration surface and its defaults — `groups`
(default `None`, resolved to the class table), `dropout` 0.5, `input_shape`
(224,224,3), `n_classes` 1000, `init_weights` `'glorot_uniform'`, `reg`
`l2(0.001)`, `relu` `None`. -/
theorem C6_configuration_surface :
    ({} : Config) = { groups := none, dropout := 1/2, input_shape := (224, 224, 3),
                      n_classes := 1000, init_weights := "glorot_uniform",
                      reg := l2 (1/1000), relu := none } ∧
    usedGroups {} SqueezeNet.groups =
      [ [⟨16⟩, ⟨16⟩, ⟨32⟩], [⟨32⟩, ⟨48⟩, ⟨48⟩, ⟨64⟩], [⟨64⟩] ] :=
  ⟨rfl, rfl⟩

/-- C7 counterexample: constructing with `groups=[]` raises the builtin
`IndexError` of `groups.pop()` in this file's `learner`, which does not
originate from a framework layer call — refuting the claim that every
construction error originates from the framework's layer code. -/
theorem C7_counterexample :
    (SqueezeNet.init { groups := some [] } SqueezeNet.groups).1 =
      .error .indexError ∧
    BuildErr.indexError ≠ BuildErr.layerError := by
  decide

/-- C7 (amended): the file performs no validation of its own — every
construction error is either a framework layer error or a builtin
`IndexError` from `pop`/`[0]` on an empty group list (there is no explicit
check or raise), and no configuration is rejected by the file itself: with
the default group table, construction succeeds for arbitrary dropout,
class-count, initializer, regularizer and clamp arguments.  (Framework-side
validation of hyperparameter values inside layer calls is outside this
file and is not modelled beyond shape inference.) -/
theorem C7_no_explicit_validation :
    (∀ (cfg : Config) (st : List Group) (e : BuildErr),
      (SqueezeNet.init cfg st).1 = .error e →
      e = .layerError ∨ e = .indexError) ∧
    (∀ (d : ℚ) (n : ℕ) (iw : String) (r : Regularizer) (rl : Option ℚ),
      (SqueezeNet.init { dropout := d, n_classes := n, init_weights := iw, reg := r,
                         relu := rl } SqueezeNet.groups).1.isOk = true) := by
  constructor
  · intro cfg st e _
    cases e
    · exact Or.inl rfl
    · exact Or.inr rfl
  · intro d n iw r rl
    have hstem : SqueezeNet.stem (inputTensor (224, 224, 3)) iw r =
        .ok ((inputTensor (224, 224, 3)).1 ++ stemSuffix iw r, Shape.map 55 55 96) :=
      stem_map (inputTensor (224, 224, 3)) iw r 224 224 3 rfl (by decide) (by decide)
    obtain ⟨tr1, c1, hg1⟩ := group_map [⟨16⟩, ⟨16⟩, ⟨32⟩]
      ((inputTensor (224, 224, 3)).1 ++ stemSuffix iw r, Shape.map 55 55 96)
      none (some r) 55 55 96 rfl (by decide) (by decide)
    have hg1' : SqueezeNet.group
        ((inputTensor (224, 224, 3)).1 ++ stemSuffix iw r, Shape.map 55 55 96)
        [⟨16⟩, ⟨16⟩, ⟨32⟩] none (some r) = .ok (tr1, Shape.map 27 27 c1) := hg1
    obtain ⟨tr2, c2, hg2⟩ := group_map [⟨32⟩, ⟨48⟩, ⟨48⟩, ⟨64⟩]
      (tr1, Shape.map 27 27 c1) none (some r) 27 27 c1 rfl (by decide) (by decide)
    have hg2' : SqueezeNet.group (tr1, Shape.map 27 27 c1)
        [⟨32⟩, ⟨48⟩, ⟨48⟩, ⟨64⟩] none (some r) = .ok (tr2, Shape.map 13 13 c2) := hg2
    have hfb := fire_block_map (tr2, Shape.map 13 13 c2) none 64 (some r) 13 13 c2 rfl
    have hlearn : (SqueezeNet.learner
        ((inputTensor (224, 224, 3)).1 ++ stemSuffix iw r, Shape.map 55 55 96)
        SqueezeNet.groups (some d) (some r)).1 =
        .ok (tr2 ++ fireSuffix SqueezeNet.init_weights 64 r ++ [Layer.dropout d],
             Shape.map 13 13 (64 * 4 + 64 * 4)) := by
      have hg : SqueezeNet.groups.getLast? = some [⟨64⟩] := rfl
      have hdl : SqueezeNet.groups.dropLast =
          [[⟨16⟩, ⟨16⟩, ⟨32⟩], [⟨32⟩, ⟨48⟩, ⟨48⟩, ⟨64⟩]] := rfl
      simp only [SqueezeNet.learner, hg, hdl, Option.getD_some, List.head?_cons]
      rw [List.foldlM_cons, hg1', ok_bind, List.foldlM_cons, hg2', ok_bind,
          List.foldlM_nil, pure_bind, ok_bind, hfb, ok_bind, applyLayer_dropout]
      rfl
    simp only [SqueezeNet.init, usedGroups, Option.getD_none, hstem]
    rw [hlearn, ok_bind,
        classifier_map _ n iw r 13 13 (64 * 4 + 64 * 4) rfl, ok_bind]
    rfl


/-- Witness for the amended C7. -/
theorem C7_witness :
    (BuildErr.indexError = .layerError ∨ BuildErr.indexError = .indexError) ∧
    (SqueezeNet.init { dropout := 1/4, n_classes := 17, init_weights := "he_normal",
                       reg := Regularizer.noReg, relu := some 6 }
      SqueezeNet.groups).1.isOk = true :=
  ⟨C7_no_explicit_validation.1 { groups := some [] } SqueezeNet.groups .indexError
      (by decide),
   C7_no_explicit_validation.2 (1/4) 17 "he_normal" Regularizer.noReg (some 6)⟩

/-- C8: a fire block called without a `reg` metaparameter falls back to the
class-level default `SqueezeNet.reg` (inherited from `Composable`) and is
still constructed successfully. -/
theorem C8_reg_fallback (x : Tensor) (iw : Option String) (n hh ww c : ℕ)
    (hx : x.2 = .map hh ww c) :
    SqueezeNet.fire_block x iw n none =
      .ok (x.1 ++ fireSuffix (iw.getD SqueezeNet.init_weights) n SqueezeNet.reg,
           .map hh ww (n * 4 + n * 4)) ∧
    SqueezeNet.reg = Composable.reg :=
  ⟨fire_block_map x iw n none hh ww c hx, rfl⟩

/-- Witness for C8. -/
theorem C8_witness :
    SqueezeNet.fire_block ([], .map 5 5 2) none 3 none =
      .ok (fireSuffix "glorot_uniform" 3 SqueezeNet.reg, .map 5 5 24) ∧
    SqueezeNet.reg = Composable.reg :=
  C8_reg_fallback ([], .map 5 5 2) none 3 5 5 2 rfl

/-- C9: every layer of a successfully constructed model is drawn from the
fixed catalog (input placeholder, `Conv2D`, `MaxPooling2D`,
`GlobalAveragePooling2D`, `Concatenate`, `Dropout`, `ReLU`, and no
`Activation` other than softmax). -/
theorem C9_layer_catalog (cfg : Config) (st st' : List Group) (m : Model)
    (h : SqueezeNet.init cfg st = (.ok m, st')) :
    m.layers.all inCatalog = true := by
  obtain ⟨x1, x2, out, hs, hl, hc, hm, _⟩ := init_ok h
  obtain ⟨hh, ww, c, _, _, _, hx1⟩ := stem_ok hs
  obtain ⟨_, suf, hsuf, _, _, hcat⟩ := learner_ok hl
  obtain ⟨hh2, ww2, c2, _, hout⟩ := classifier_ok hc
  subst hm
  show out.1.all inCatalog = true
  have houtl : out.1 = x2.1 ++ classifierSuffix cfg.n_classes cfg.init_weights cfg.reg := by
    rw [hout]
  have hx1l : x1.1 = [Layer.input cfg.input_shape] ++ stemSuffix cfg.init_weights cfg.reg := by
    rw [hx1]; rfl
  rw [houtl, hsuf, hx1l, List.all_append, List.all_append, List.all_append, hcat]
  rfl

/-- Witness for C9 at the all-default construction. -/
theorem C9_witness : defaultModel.layers.all inCatalog = true :=
  C9_layer_catalog {} SqueezeNet.groups SqueezeNet.groups.dropLast defaultModel
    rfl

/-- C10: the stem is exactly one convolution stage (96 filters, 7×7, stride
2, ReLU) followed by one max-pooling stage (3×3, stride 2), and on every
sufficiently large input (both extents ≥ 5) its output resolution is
strictly smaller than the input resolution. -/
theorem C10_stem_structure_and_shrink (x : Tensor) (iw : String) (r : Regularizer)
    (hh ww c : ℕ) (hx : x.2 = .map hh ww c) (hh5 : 5 ≤ hh) (hw5 : 5 ≤ ww) :
    SqueezeNet.stem x iw r =
      .ok (x.1 ++ [Layer.conv2D 96 7 7 2 .same none iw r, Layer.relu Composable.relu,
                   Layer.maxPooling2D 3 3 2 2],
           .map ((ceilDiv hh 2 - 3) / 2 + 1) ((ceilDiv ww 2 - 3) / 2 + 1) 96) ∧
    (ceilDiv hh 2 - 3) / 2 + 1 < hh ∧ (ceilDiv ww 2 - 3) / 2 + 1 < ww := by
  have h3h : 3 ≤ ceilDiv hh 2 := by unfold ceilDiv; omega
  have h3w : 3 ≤ ceilDiv ww 2 := by unfold ceilDiv; omega
  refine ⟨stem_map x iw r hh ww c hx h3h h3w, ?_, ?_⟩ <;> (unfold ceilDiv; omega)

/-- Witness for C10 on the default 224×224×3 input. -/
theorem C10_witness :
    SqueezeNet.stem (inputTensor (224, 224, 3)) "glorot_uniform" (l2 (1/1000)) =
      .ok ([Layer.input (224, 224, 3),
            Layer.conv2D 96 7 7 2 .same none "glorot_uniform" (l2 (1/1000)),
            Layer.relu none, Layer.maxPooling2D 3 3 2 2],
           .map 55 55 96) ∧
    (55 : ℕ) < 224 ∧ (55 : ℕ) < 224 :=
  C10_stem_structure_and_shrink (inputTensor (224, 224, 3)) "glorot_uniform"
    (l2 (1/1000)) 224 224 3 rfl (by decide) (by decide)

end SqueezeNetC
